import Mathlib

/-!
Verification development for the PeTrack trajectory-tracking core.

The definitions below are shallow embeddings of the C++ sources under
`src/` (`src/helper.cpp`, `include/helper.h`, `src/petrack.cpp`).
`double` values are modelled as exact rationals (`ℚ`), C `int` values as
`ℤ`; the C library `sqrt` is kept as an opaque function parameter; Qt
string operations (`QString::split`, `QString::toInt`,
`QString::contains` with case-insensitivity) are modelled character by
character following their documented semantics.  Where a function's body
lives in a translation unit that is not part of this repository snapshot
(e.g. `PersonStorage`), the definition is modelled from the spec and
says so in its doc comment.
-/

set_option autoImplicit false

namespace PeTrack

/-! ## Geometry primitives (vector.h, Qt value types) -/

/-- A 2D point with exact-rational coordinates (models `Vec2F` / `QPointF` /
`cv::Point2f`). -/
structure Vec2 where
  x : ℚ
  y : ℚ
deriving DecidableEq, Repr, Inhabited

/-- A 3D point with exact-rational coordinates (models `Vec3F` / `cv::Point3f`). -/
structure Vec3 where
  x : ℚ
  y : ℚ
  z : ℚ
deriving DecidableEq, Repr, Inhabited

/-- A Qt rectangle as used for requested ROIs (models `QRect`): position plus
signed extents. -/
structure QRect where
  x : ℤ
  y : ℤ
  width : ℤ
  height : ℤ
deriving DecidableEq, Repr, Inhabited

/-- An OpenCV rectangle (models `cv::Rect`), the out-parameter of `getRoi`. -/
structure CvRect where
  x : ℤ
  y : ℤ
  width : ℤ
  height : ℤ
deriving DecidableEq, Repr, Inhabited

/-! ## helper.cpp: getRoi

Embedding of `getRoi(cv::Mat &img, const QRect &roi, cv::Rect &rect, bool
evenPixelNumber)` from `src/helper.cpp` lines 133–182.  The image enters only
through its dimensions (`img.cols`, `img.rows`); the returned value models the
`rect` out-parameter.  The C++ `%` on `int` is truncated remainder, i.e.
`Int.tmod`.  The position/extent clipping is written once per axis in the C++
(the two blocks are verbatim symmetric in x/cols and y/rows); `clipAxis` is
that common block. -/

/-- One axis of `getRoi`'s clipping:
`if(rect.x < 0) { rect.width += rect.x; rect.x = 0; }
else if(rect.x > img.cols) { rect.width = 0; rect.x = img.cols; }
if(rect.x + rect.width > img.cols) rect.width -= (rect.x + rect.width - img.cols);`. -/
def clipAxis (size pos ext : ℤ) : ℤ × ℤ :=
  let pe : ℤ × ℤ :=
    if pos < 0 then (0, ext + pos)
    else if pos > size then (size, 0)
    else (pos, ext)
  if pe.1 + pe.2 > size then (pe.1, pe.2 - (pe.1 + pe.2 - size)) else pe

/-- The even-adjustment `getRoi` applies to a requested extent before
clipping: decrement when the C `%`-remainder by 2 is positive
(`if(rect.width % 2 > 0) --rect.width;`); the C `%` on `int` truncates,
i.e. `Int.tmod`, so a negative odd extent is left alone. -/
def evenAdjust (w : ℤ) : ℤ :=
  if w.tmod 2 > 0 then w - 1 else w

def getRoi (imgCols imgRows : ℤ) (roi : QRect) (evenPixelNumber : Bool) : CvRect :=
  -- rect starts as a copy of roi; the extents are made even first when requested
  let w1 : ℤ := if evenPixelNumber then evenAdjust roi.width else roi.width
  let h1 : ℤ := if evenPixelNumber then evenAdjust roi.height else roi.height
  let xw := clipAxis imgCols roi.x w1
  let yh := clipAxis imgRows roi.y h1
  ⟨xw.1, yh.1, xw.2, yh.2⟩

/-! ## helper.h: getMedianOf3

Embedding of the inline `getMedianOf3(double a, double b, double c)` from
`include/helper.h` lines 92–124, with `double` modelled as `ℚ`. -/
def getMedianOf3 (a b c : ℚ) : ℚ :=
  if a < b then
    if b < c then b -- a b c
    else if c < b ∧ c < a then a -- c a b
    else c -- a c b
  else -- b <= a
    if a < c then a -- b a c
    else if c < a ∧ c < b then b -- c b a
    else c -- b c a

/-! ## Qt string primitives

Character-level models of the Qt string operations used by
`newerThanVersion` and `Petrack::importTracker`:
`QString::split('.')` (keeping empty parts, the Qt default),
`QString::toInt(&ok, 10)` (skips surrounding whitespace, accepts an optional
sign followed by at least one decimal digit, and sets `ok = false` when the
value falls outside the 32-bit `int` range), `QString::contains(pat)` and
`QString::contains(pat, Qt::CaseInsensitive)`. -/

/-- Accumulate a decimal value over characters; fails on the first
non-digit. -/
def digitsValGo : List Char → ℕ → Option ℕ
  | [], acc => some acc
  | c :: cs, acc =>
    if c.isDigit then digitsValGo cs (acc * 10 + (c.toNat - 48)) else none

/-- Value of a nonempty all-digit character list; `none` otherwise. -/
def digitsVal : List Char → Option ℕ
  | [] => none
  | cs => digitsValGo cs 0

/-- Drop ASCII whitespace from both ends (the skipping `QString::toInt`
performs). -/
def trimChars (cs : List Char) : List Char :=
  ((cs.dropWhile Char.isWhitespace).reverse.dropWhile Char.isWhitespace).reverse

/-- Qt's `toInt` returns a C `int`: a value outside the 32-bit range
`[-2147483648, 2147483647]` is a conversion failure (`ok = false`). -/
def qIntOfRange (v : ℤ) : Option ℤ :=
  if -2147483648 ≤ v ∧ v ≤ 2147483647 then some v else none

/-- `QString::toInt(&ok, 10)` on a character list: `some` iff `ok`. -/
def qCharsToInt (cs : List Char) : Option ℤ :=
  match trimChars cs with
  | '+' :: ds => (digitsVal ds).bind (fun n => qIntOfRange (n : ℤ))
  | '-' :: ds => (digitsVal ds).bind (fun n => qIntOfRange (-(n : ℤ)))
  | ds => (digitsVal ds).bind (fun n => qIntOfRange (n : ℤ))

/-- `QString::toInt(&ok, 10)`. -/
def qStringToInt (s : String) : Option ℤ :=
  qCharsToInt s.data

/-- `QString::split(QLatin1Char('.'))`, keeping empty parts. -/
def splitDot : List Char → List (List Char)
  | [] => [[]]
  | c :: cs =>
    if c = '.' then [] :: splitDot cs
    else
      match splitDot cs with
      | [] => [[c]] -- unreachable: splitDot never returns []
      | p :: ps => (c :: p) :: ps

/-- Does `pat` occur as a contiguous sublist of `s`? -/
def containsSub (s pat : List Char) : Bool :=
  pat.isPrefixOf s ||
    match s with
    | [] => false
    | _ :: cs => containsSub cs pat

/-- `QString::contains(pat)` with Qt's default case-sensitive compare. -/
def qContains (s pat : String) : Bool :=
  containsSub s.data pat.data

/-- `QString::contains(pat, Qt::CaseInsensitive)`. -/
def qContainsCI (s pat : String) : Bool :=
  containsSub (s.data.map Char.toLower) (pat.data.map Char.toLower)

/-! ## helper.cpp: newerThanVersion

Embedding of `newerThanVersion(const QString &q1, const QString &q2)` from
`src/helper.cpp` lines 193–257.  The two `throw std::invalid_argument`
statements are modelled by `Except.error` carrying the exception message. -/

/-- The two parsing loops of `newerThanVersion`: split at `'.'` and convert
every part with `toInt`, failing on the first non-numeric part. -/
def partsToInts : List (List Char) → Option (List ℤ)
  | [] => some []
  | p :: ps =>
    match qCharsToInt p, partsToInts ps with
    | some v, some vs => some (v :: vs)
    | _, _ => none

/-- Split a version string into its numeric parts (`none` = some part is
non-numeric, i.e. the first `throw` fires). -/
def versionParts (s : String) : Option (List ℤ) :=
  partsToInts (splitDot s.data)

/-- The final comparison loop of `newerThanVersion` (`for i < 3: if v1[i] >
v2[i] return true; else if v1[i] < v2[i] return false; return false`),
generalized structurally over two equal-length lists. -/
def lexNewer : List ℤ → List ℤ → Bool
  | a :: as, b :: bs =>
    if a > b then true
    else if a < b then false
    else lexNewer as bs
  | _, _ => false

/-- `newerThanVersion` itself; `Except.error` models the thrown
`std::invalid_argument`. -/
def newerThanVersion (q1 q2 : String) : Except String Bool :=
  match versionParts q1 with
  | none => .error "Invalid PeTrack version string: Version is non-numeric!"
  | some v1 =>
    match versionParts q2 with
    | none => .error "Invalid PeTrack version string: Version is non-numeric!"
    | some v2 =>
      -- special case: PATCH can be omitted; is then assumed to be zero
      let v1' := if ¬(v1.length = 3 ∧ v2.length = 3) ∧ v1.length = 2 then v1 ++ [0] else v1
      let v2' := if ¬(v1.length = 3 ∧ v2.length = 3) ∧ v2.length = 2 then v2 ++ [0] else v2
      if ¬(v1'.length = 3 ∧ v2'.length = 3) then
        .error "Invalid PeTrack version string: Amount of version parts is wrong!"
      else
        .ok (lexNewer v1' v2')

/-- Claim-side reading of a version string as a `(major, minor, patch)`
triple: exactly two or three numeric parts, a missing patch meaning `0`. -/
def parseTriple (s : String) : Option (ℤ × ℤ × ℤ) :=
  match versionParts s with
  | some [a, b] => some (a, b, 0)
  | some [a, b, c] => some (a, b, c)
  | _ => none

/-- Claim-side strict lexicographic "newer than" on version triples. -/
def tripleNewer (t u : ℤ × ℤ × ℤ) : Bool :=
  decide (u.1 < t.1 ∨ (u.1 = t.1 ∧ (u.2.1 < t.2.1 ∨ (u.2.1 = t.2.1 ∧ u.2.2 < t.2.2))))

/-! ## Track data model

`TrackPoint`/`TrackPerson` live in translation units outside this snapshot
(`trackPoint.h`, `trackPerson.h`); the fields and accessors used by the
embedded `petrack.cpp` code are modelled from the spec's data model
(§3: a point is a pixel position with a quality score and a cached
real-world/stereo coordinate; a person is a contiguous frame-indexed
point sequence starting at `firstFrame`). -/

/-- One frame's record for one person: pixel position, quality and the
cached stereo/real-world coordinate (`sp`). -/
structure TrackPoint where
  pos : Vec2
  qual : ℤ
  sp : Vec3
deriving DecidableEq, Repr, Inhabited

/-- One tracked identity: id, first frame, height and its contiguous point
sequence. -/
structure TrackPerson where
  nr : ℤ
  firstFrame : ℤ
  height : ℚ
  points : List TrackPoint
deriving DecidableEq, Repr, Inhabited

/-- Modelled from the spec: `TrackPerson::trackPointExist(frame)` — the person
has a point at `frame` iff `firstFrame ≤ frame ≤ firstFrame + length − 1`
(spec §3 contiguity invariant; `trackPerson.h` is not under `src/`). -/
def TrackPerson.trackPointExist (tp : TrackPerson) (frame : ℤ) : Bool :=
  decide (tp.firstFrame ≤ frame) && decide (frame ≤ tp.firstFrame + tp.points.length - 1)

/-- Modelled from the spec: `TrackPerson::trackPointAt(frame)` — the point at
offset `frame − firstFrame` (`trackPerson.h` is not under `src/`). -/
def TrackPerson.trackPointAt (tp : TrackPerson) (frame : ℤ) : TrackPoint :=
  tp.points.getD (frame - tp.firstFrame).toNat default

/-! ## petrack.cpp: addOrMoveManualTrackPoint (claim C1)

`Petrack::addOrMoveManualTrackPoint` (lines 3955–3964) constructs
`TrackPoint tP(Vec2F{pos}, 110)` and hands it to `PersonStorage::addPoint`. -/

/-- The point a manual insert submits: clicked position with the sentinel
quality 110 (`petrack.cpp` line 3958). -/
def manualTrackPoint (pos : Vec2) : TrackPoint :=
  { pos := pos, qual := 110, sp := default }

/-- Modelled from the spec: the replacement rule of `PersonStorage::addPoint`
at an occupied (person, frame) slot — "replacement occurs iff the new quality
strictly exceeds the stored quality", and an accepted point's quality is
"clamped to 100 on acceptance" (`personStorage.cpp` is not under `src/`). -/
def addPointReplace (stored candidate : TrackPoint) : TrackPoint :=
  if candidate.qual > stored.qual then
    { candidate with qual := min candidate.qual 100 }
  else
    stored

/-! ## petrack.cpp: importTracker, `.trc` branch (claim C2)

`Petrack::importTracker` (lines 2598–2639): the first line of a `.trc` file
is fed to `QString::toInt`; on success the file is version 1 and the integer
is the person count; otherwise the line must contain `version 4`, `version 3`
or `version 2` (case-insensitively, tested in that order), the count being
read from the stream afterwards; any other first line aborts the import
before any `addPerson` call. -/

/-- The parts of a `.trc` file the version/commit logic consumes: its first
line, the integer the stream yields after a version header (`in >> sz`), and
the successive persons `fromTrc` parses from the remainder (`fromTrc` lives
outside this snapshot, so the parsed persons are taken as given). -/
structure TrcFile where
  firstLine : String
  streamCount : ℤ
  persons : List TrackPerson
deriving Repr, Inhabited

/-- The `.trc` import: returns the new store contents together with
`some (trcVersion, sz)` on success, or `none` (and the untouched store) when
the header is rejected (`QMessageBox::critical` + `return`). -/
def importTrc (file : TrcFile) (store : List TrackPerson) :
    List TrackPerson × Option (ℕ × ℤ) :=
  match qStringToInt file.firstLine with
  | some n => (store ++ file.persons.take n.toNat, some (1, n))
  | none =>
    if qContainsCI file.firstLine "version 4" then
      (store ++ file.persons.take file.streamCount.toNat, some (4, file.streamCount))
    else if qContainsCI file.firstLine "version 3" then
      (store ++ file.persons.take file.streamCount.toNat, some (3, file.streamCount))
    else if qContainsCI file.firstLine "version 2" then
      (store ++ file.persons.take file.streamCount.toNat, some (2, file.streamCount))
    else
      (store, none)

/-! ## petrack.cpp: importTracker, legacy `.txt` branch (claim C3)

Lines 2651–2782: every non-comment line `persNr frameNr x y z` is parsed into
a local `personData` map; a `(person, frame)` key that is already present
aborts the whole import (`PCritical` + `return`) before anything is committed;
only after the parsing loop are the collected persons pushed into
`PersonStorage`.  Lines are taken pre-tokenized (a comment line starting with
`#`, or a data record); the float parsing of `QTextStream` is not itself at
issue in any claim. -/

/-- One line of a legacy `.txt` trajectory file. -/
inductive TxtLine where
  /-- A header/comment line (starts with `#`); carries its text. -/
  | comment (text : String)
  /-- A data record `persNr frameNr x y z`. -/
  | record (persNr frameNr : ℤ) (x y z : ℚ)
deriving DecidableEq, Repr

/-- Lookup in the parsed `personData` map, keyed by `(persNr, frameNr)`
(models `personData[personNr].find(frameNr)`). -/
def assocFind (k : ℤ × ℤ) : List ((ℤ × ℤ) × Vec3) → Option Vec3
  | [] => none
  | (k', v) :: rest => if k = k' then some v else assocFind k rest

/-- The parser state of the `.txt` reading loop: the unit bookkeeping and the
accumulated `personData`. -/
structure TxtParseState where
  unitFound : Bool
  conversionFactorToCM : ℚ
  headerline : String
  personData : List ((ℤ × ℤ) × Vec3)
deriving Repr

/-- Initial state of the reading loop (`unitFound = false`,
`conversionFactorToCM = 1.0`, empty header, empty map). -/
def initTxtState : TxtParseState :=
  { unitFound := false, conversionFactorToCM := 1, headerline := "", personData := [] }

/-- The unit bookkeeping at the head of each data line:
`if((!unitFound) && (!headerline.contains("cm"))) { conversionFactorToCM =
100.0; unitFound = true; ... }`. -/
def txtUnitStep (st : TxtParseState) : TxtParseState :=
  if ¬st.unitFound ∧ ¬(qContains st.headerline "cm") then
    { st with conversionFactorToCM := 100, unitFound := true }
  else st

/-- The `while(in.readLineInto(&line))` loop: `none` models the duplicate-key
abort. -/
def parseTxtLines : List TxtLine → TxtParseState → Option TxtParseState
  | [], st => some st
  | .comment text :: rest, st =>
      parseTxtLines rest { st with headerline := text }
  | .record p f x y z :: rest, st =>
      let st := txtUnitStep st
      let v : Vec3 := ⟨x * st.conversionFactorToCM, y * st.conversionFactorToCM,
                       z * st.conversionFactorToCM⟩
      match assocFind (p, f) st.personData with
      | none => parseTxtLines rest { st with personData := st.personData ++ [((p, f), v)] }
      | some _ => none

/-- First-occurrence list of person ids in the parsed data (iteration over
`personData`; the iteration order of the `unordered_map` is modelled as
insertion order). -/
def uniqNrs : List ℤ → List ℤ
  | [] => []
  | p :: ps => p :: (uniqNrs ps).filter (fun q => q ≠ p)

/-- Insertion into a frame-sorted list (the inner `std::map` iterates its
entries in ascending frame order). -/
def insertByFrame (e : ℤ × Vec3) : List (ℤ × Vec3) → List (ℤ × Vec3)
  | [] => [e]
  | f :: fs => if e.1 ≤ f.1 then e :: f :: fs else f :: insertByFrame e fs

/-- Sort a person's frame data ascending by frame. -/
def sortByFrame : List (ℤ × Vec3) → List (ℤ × Vec3)
  | [] => []
  | e :: es => insertByFrame e (sortByFrame es)

/-- The per-frame pixel point the commit loop builds: project the real-world
coordinates (via the calibration, kept opaque as `proj`), quality 100, and
cache the distance-to-camera in `sp` (`TrackPoint trackPoint(Vec2F(...), 100);
trackPoint.setSp(x, y, -trans3 - z)`). -/
def txtPixelPoint (proj : Vec3 → Vec2) (trans3 : ℚ) (v : Vec3) : TrackPoint :=
  { pos := proj v, qual := 100, sp := ⟨v.x, v.y, -trans3 - v.z⟩ }

/-- The commit loop (`for(auto &[persNr, frameData] : personData)`): one
`TrackPerson` per id, starting at its smallest frame, height from the first
frame's `z`. -/
def commitTxtPersons (proj : Vec3 → Vec2) (trans3 : ℚ)
    (data : List ((ℤ × ℤ) × Vec3)) : List TrackPerson :=
  (uniqNrs (data.map (fun e => e.1.1))).filterMap (fun p =>
    match sortByFrame (data.filterMap (fun e =>
        if e.1.1 = p then some (e.1.2, e.2) else none)) with
    | [] => none -- unreachable: every listed id owns at least one frame
    | (f0, v0) :: rest =>
        some { nr := p, firstFrame := f0, height := v0.z,
               points := txtPixelPoint proj trans3 v0 ::
                 rest.map (fun e => txtPixelPoint proj trans3 e.2) })

/-- The whole `.txt` import against a store: `(new store, errored?)`.  The
duplicate abort happens during parsing, before the commit loop, so the store
comes back untouched in that case. -/
def importTxt (proj : Vec3 → Vec2) (trans3 : ℚ) (lines : List TxtLine)
    (store : List TrackPerson) : List TrackPerson × Bool :=
  match parseTxtLines lines initTxtState with
  | none => (store, true)
  | some st => (store ++ commitTxtPersons proj trans3 st.personData, false)

/-- The `(person, frame)` keys of the data records of a `.txt` file, in file
order. -/
def recordKeys : List TxtLine → List (ℤ × ℤ)
  | [] => []
  | .comment _ :: rest => recordKeys rest
  | .record p f _ _ _ :: rest => (p, f) :: recordKeys rest

/-- Duplicate detection as the parsing loop performs it: walking the lines
with the set `ks` of keys already stored, is some record's key an earlier
key? -/
def hasDupFrom (ks : List (ℤ × ℤ)) : List TxtLine → Bool
  | [] => false
  | .comment _ :: rest => hasDupFrom ks rest
  | .record p f _ _ _ :: rest =>
      decide ((p, f) ∈ ks) || hasDupFrom (ks ++ [(p, f)]) rest

/-! ## petrack.cpp: skipToFrameFromTrajectory (claim C4)

`Petrack::skipToFrameFromTrajectory` (lines 4065–4086) dispatches on the size
of the proximity-query result: exactly one match skips the player to that
match's frame; two or more only raise a warning; zero does nothing.  The
query itself (`PersonStorage::getProximalPersons`) is an input here — the
claim is about the caller's dispatch. -/

/-- One `(person, frame)` proximity match (the element type of
`getProximalPersons`' result). -/
structure ProxMatch where
  person : ℕ
  frame : ℤ
deriving DecidableEq, Repr, Inhabited

/-- Outcome of `skipToFrameFromTrajectory`: the player position afterwards,
whether `skipToFrame` was invoked, and whether the ambiguity warning was
shown. -/
structure SkipOutcome where
  pos : ℤ
  skipped : Bool
  warned : Bool
deriving DecidableEq, Repr

/-- The dispatch of `skipToFrameFromTrajectory` on the proximity result
`res`, starting from player position `currFrame`. -/
def skipToFrameFromTrajectory (res : List ProxMatch) (currFrame : ℤ) : SkipOutcome :=
  if res.length = 1 then
    { pos := (res.headD default).frame, skipped := true, warned := false }
  else if res.length > 1 then
    { pos := currFrame, skipped := false, warned := true }
  else
    { pos := currFrame, skipped := false, warned := false }

/-! ## petrack.cpp: getHeadSize (claim C5)

`Petrack::getHeadSize(QPointF *pos, int pers, int frame)` (lines 3722–3780).
The extrinsic calibration (`ExtrCalibration::get3DPoint` / `getImagePoint`)
lives outside this snapshot and is kept opaque, as are the C library `sqrt`
and the constants `HEAD_SIZE` / `MIN_HEIGHT` (defined in headers outside
`src/`).  The C cast `(int)` on a nonnegative value truncates toward zero,
modelled by `ratTrunc`. -/

/-- Truncation toward zero of a rational, the C `(int)` cast. -/
def ratTrunc (q : ℚ) : ℤ :=
  q.num.tdiv q.den

/-- The opaque extrinsic calibration collaborator. -/
structure ExtrCalib where
  get3DPoint : Vec2 → ℚ → Vec3
  getImagePoint : Vec3 → Vec2

/-- Everything `getHeadSize` reads: the calibration, the math/config
constants and the control-widget state, plus the person store. -/
structure HeadSizeEnv where
  sqrtFn : ℚ → ℚ
  calib : ExtrCalib
  headSizeCm : ℚ     -- the HEAD_SIZE constant
  minHeight : ℚ      -- the MIN_HEIGHT constant
  calibCoordDimension : ℤ
  defaultHeight : ℚ
  cameraAltitude : ℚ
  cmPerPixel : ℚ
  mHeadSize : ℚ
  persons : List TrackPerson

/-- `mPersonStorage.at(pers)`. -/
def HeadSizeEnv.personAt (env : HeadSizeEnv) (pers : ℤ) : TrackPerson :=
  env.persons.getD pers.toNat default

/-- `sqrt(pow(b.x - a.x, 2) + pow(b.y - a.y, 2))` — the pixel distance between
two projected points, with the library `sqrt` kept opaque. -/
def pixelDist (sqrtFn : ℚ → ℚ) (b a : Vec2) : ℚ :=
  sqrtFn ((b.x - a.x) ^ 2 + (b.y - a.y) ^ 2)

/-- `Petrack::getHeadSize`. -/
def getHeadSize (env : HeadSizeEnv) (pos : Option Vec2) (pers frame : ℤ) : ℚ :=
  if 0 ≤ pers ∧ pers < (env.persons.length : ℤ) ∧
      (env.personAt pers).trackPointExist frame then
    if env.calibCoordDimension = 0 then
      let tp := (env.personAt pers).trackPointAt frame
      let p3d := env.calib.get3DPoint tp.pos env.defaultHeight
      let x1 := env.calib.getImagePoint ⟨p3d.x + env.headSizeCm * (1/2), p3d.y, p3d.z⟩
      let x2 := env.calib.getImagePoint ⟨p3d.x - env.headSizeCm * (1/2), p3d.y, p3d.z⟩
      let y1 := env.calib.getImagePoint ⟨p3d.x, p3d.y + env.headSizeCm * (1/2), p3d.z⟩
      let y2 := env.calib.getImagePoint ⟨p3d.x, p3d.y - env.headSizeCm * (1/2), p3d.z⟩
      (ratTrunc (max (pixelDist env.sqrtFn x2 x1) (pixelDist env.sqrtFn y2 y1)) : ℚ)
    else
      let z := ((env.personAt pers).trackPointAt frame).sp.z
      let h := (env.personAt pers).height
      if z > 0 then
        env.headSizeCm * env.cameraAltitude / z / env.cmPerPixel
      else if h > env.minHeight then
        env.headSizeCm * env.cameraAltitude / (env.cameraAltitude - h) / env.cmPerPixel
      else
        env.mHeadSize
  else
    env.mHeadSize

/-- Claim-side description: the pixel delta obtained by projecting the two 3D
points offset by `±(dx, dy, 0)` around the estimated head position `p3d`. -/
def headPixelDelta (env : HeadSizeEnv) (p3d : Vec3) (dx dy : ℚ) : ℚ :=
  pixelDist env.sqrtFn
    (env.calib.getImagePoint ⟨p3d.x - dx, p3d.y - dy, p3d.z⟩)
    (env.calib.getImagePoint ⟨p3d.x + dx, p3d.y + dy, p3d.z⟩)

/-! ## petrack.cpp: updateImage pipeline order (claim C6)

`Petrack::updateImage(bool imageChanged)` (lines 3321–3618).  The embedding
records which pipeline stages run, as a trace of events in program order,
gated by exactly the conditions of the source: the five image filters, the
store clear on intrinsic-calibration change, the tracking update
(`mTracker->track`, which persists tracker points), and the recognition
update (`mReco.getMarkerPos` followed by `mPersonStorage.addPoints`). -/

/-- A stage of the per-frame pipeline, in the sense of the spec §5 ordering. -/
inductive PipelineStep where
  | filterSwap
  | filterBrightContrast
  | filterBorder
  | filterCalib
  | filterBackground
  | clearOnCalibChange
  | trackUpdate
  | recoDetect
  | recoPersist
deriving DecidableEq, Repr

/-- Phase number of a pipeline step: image filtering (incl. the
calibration-change store reset) = 0, tracking = 1, recognition detection = 2,
recognition persistence = 3. -/
def stepPhase : PipelineStep → ℕ
  | .filterSwap => 0
  | .filterBrightContrast => 0
  | .filterBorder => 0
  | .filterCalib => 0
  | .filterBackground => 0
  | .clearOnCalibChange => 0
  | .trackUpdate => 1
  | .recoDetect => 2
  | .recoPersist => 3

/-- The inputs `updateImage` dispatches on. -/
structure UpdateFlags where
  imageChanged : Bool
  swapChanged : Bool
  brightContrastChanged : Bool
  borderChanged : Bool
  calibChanged : Bool
  backgroundChanged : Bool
  backgroundFilenameEmpty : Bool
  trackChanged : Bool
  onlineTracking : Bool
  performRecognition : Bool
  recognitionChanged : Bool
  cameraLiveStream : Bool
  lastRecoFrame : ℤ
  recoStep : ℤ
  frameNum : ℤ
  nbPersons : ℕ
deriving Repr

/-- `mBackgroundFilter.changed()` at the moment of the background-filter
check: the filter's own flag, or the reset performed just above when any
upstream filter changed and no explicit background file is loaded. -/
def bgChangedAtCheck (f : UpdateFlags) : Bool :=
  f.backgroundChanged ||
    ((f.brightContrastChanged || f.swapChanged || f.borderChanged || f.calibChanged) &&
      f.backgroundFilenameEmpty)

/-- The gating condition of the recognition block (lines 3509–3513). -/
def recoGate (f : UpdateFlags) : Bool :=
  (((f.lastRecoFrame + f.recoStep ≤ f.frameNum) ||
      (f.lastRecoFrame - f.recoStep ≥ f.frameNum)) && f.imageChanged) ||
    f.cameraLiveStream || f.swapChanged || f.brightContrastChanged ||
    f.borderChanged || f.calibChanged || f.recognitionChanged

/-- The pipeline stages one `updateImage` body executes, in program order. -/
def updateImageTrace (f : UpdateFlags) : List PipelineStep :=
  (if f.imageChanged || f.swapChanged then [.filterSwap] else []) ++
  (if f.imageChanged || f.swapChanged || f.brightContrastChanged then
    [.filterBrightContrast] else []) ++
  (if f.imageChanged || f.swapChanged || f.brightContrastChanged || f.borderChanged then
    [.filterBorder] else []) ++
  (if f.imageChanged || f.swapChanged || f.brightContrastChanged || f.borderChanged ||
      f.calibChanged then [.filterCalib] else []) ++
  (if f.imageChanged || bgChangedAtCheck f then [.filterBackground] else []) ++
  (if f.calibChanged && f.nbPersons > 0 then [.clearOnCalibChange] else []) ++
  (if (f.trackChanged || f.imageChanged) && f.onlineTracking then [.trackUpdate] else []) ++
  (if recoGate f then
    (if f.performRecognition then [.recoDetect, .recoPersist] else [])
   else [])

/-! ## petrack.cpp: updateImage single-flight guard (claim C7)

Lines 3321–3332 and 3616: the body runs only when `!mImg.empty() && mImage &&
semaphore.tryAcquire()` with a one-permit `QSemaphore`; the permit is released
at the end of the body.  Re-entrant calls (the GUI is single-threaded;
`qApp->processEvents()` and widget updates inside the body can call
`updateImage` again synchronously) are modelled as a forest of calls: each
call carries the frame it would process, whether its image guard holds, the
nested calls its body triggers, and its sibling calls. -/

/-- A forest of `updateImage` invocations: `nil`, or a call (with image-guard
flag, its frame, the calls nested inside its body, and the following sibling
calls). -/
inductive CallForest where
  | nil : CallForest
  | call (imgOk : Bool) (frame : ℤ) (nested rest : CallForest) : CallForest
deriving DecidableEq, Repr

/-- Run a forest of calls against the semaphore (number of free permits):
`tryAcquire` succeeds only when a permit is free; on success the body
processes its frame, runs the nested calls with the permit held, and releases
at the end.  Returns the final permit count and the frames processed, in
order. -/
def runCalls : CallForest → ℕ → ℕ × List ℤ
  | .nil, sem => (sem, [])
  | .call imgOk frame nested rest, sem =>
    if imgOk ∧ sem > 0 then
      let body := runCalls nested (sem - 1)
      let after := runCalls rest (body.1 + 1)
      (after.1, (frame :: body.2) ++ after.2)
    else
      let after := runCalls rest sem
      (after.1, after.2)

/-- The frames of the top-level calls whose image guard holds — the frames the
claim says are processed exactly once each. -/
def topFrames : CallForest → List ℤ
  | .nil => []
  | .call imgOk frame _ rest =>
    if imgOk then frame :: topFrames rest else topFrames rest

/-! ## Concrete fixtures used by the witnesses -/

/-- A concrete environment exercising the 3D branch of `getHeadSize`: one
person with one point at frame 0, a toy calibration and the identity in place
of `sqrt`. -/
def headSizeDemoEnv : HeadSizeEnv where
  sqrtFn := fun q => q
  calib :=
    { get3DPoint := fun p h => ⟨p.x, p.y, h⟩
      getImagePoint := fun v => ⟨2 * v.x, 3 * v.y⟩ }
  headSizeCm := 21
  minHeight := 50
  calibCoordDimension := 0
  defaultHeight := 180
  cameraAltitude := 500
  cmPerPixel := 1
  mHeadSize := 7
  persons := [{ nr := 0, firstFrame := 0, height := 0,
                points := [{ pos := ⟨4, 5⟩, qual := 80, sp := ⟨0, 0, 0⟩ }] }]

/-- A flag assignment under which every pipeline stage runs: new frame, all
filters changed, online tracking on, recognition due and enabled. -/
def demoFlags : UpdateFlags where
  imageChanged := true
  swapChanged := true
  brightContrastChanged := true
  borderChanged := true
  calibChanged := true
  backgroundChanged := true
  backgroundFilenameEmpty := true
  trackChanged := true
  onlineTracking := true
  performRecognition := true
  recognitionChanged := true
  cameraLiveStream := false
  lastRecoFrame := 0
  recoStep := 1
  frameNum := 5
  nbPersons := 1

/-! ## Shared lemmas -/

/-- For nonnegative operands the C remainder agrees with Lean's `%`. -/
theorem tmod_two_of_nonneg (w : ℤ) (h : 0 ≤ w) : w.tmod 2 = w % 2 :=
  Int.tmod_eq_emod h (by norm_num)

/-- Everything `clipAxis` guarantees unconditionally, plus what it guarantees
for well-formed requests. -/
theorem clipAxis_spec (size pos ext : ℤ) (hs : 0 ≤ size) :
    0 ≤ (clipAxis size pos ext).1 ∧
    (clipAxis size pos ext).1 + (clipAxis size pos ext).2 ≤ size ∧
    (0 ≤ pos → 0 ≤ ext → 0 ≤ (clipAxis size pos ext).2) ∧
    (0 ≤ pos → 0 ≤ ext → pos + ext ≤ size → clipAxis size pos ext = (pos, ext)) := by
  simp only [clipAxis]
  split_ifs <;> simp_all <;> omega

/-! ## Claim theorems -/

/-- **C10.** For all inputs (doubles modelled as exact rationals),
`getMedianOf3 a b c` returns the median: it is one of `a`, `b`, `c`, at least
the minimum of the other two and at most the maximum of the other two. -/
theorem getMedianOf3_is_median (a b c : ℚ) :
    (getMedianOf3 a b c = a ∧ min b c ≤ a ∧ a ≤ max b c) ∨
    (getMedianOf3 a b c = b ∧ min a c ≤ b ∧ b ≤ max a c) ∨
    (getMedianOf3 a b c = c ∧ min a b ≤ c ∧ c ≤ max a b) := by
  unfold getMedianOf3
  split_ifs with h1 h2 h3 h4 h5 <;>
    [ exact Or.inr (Or.inl ⟨rfl, min_le_of_left_le h1.le, le_max_of_le_right h2.le⟩);
      exact Or.inl ⟨rfl, min_le_of_right_le h3.2.le, le_max_of_le_left h1.le⟩;
      skip;
      exact Or.inl ⟨rfl, min_le_of_left_le (not_lt.mp h1), le_max_of_le_right h4.le⟩;
      exact Or.inr (Or.inl ⟨rfl, min_le_of_right_le h5.2.le, le_max_of_le_left (not_lt.mp h1)⟩);
      skip ]
  · -- a < b, ¬(b < c), ¬(c < b ∧ c < a): result c, median of {a, c} with a ≤ c ≤ b
    refine Or.inr (Or.inr ⟨rfl, ?_, le_max_of_le_right (not_lt.mp h2)⟩)
    rcases not_and_or.mp h3 with h | h
    · exact min_le_of_left_le (by linarith [not_lt.mp h])
    · exact min_le_of_left_le (not_lt.mp h)
  · -- ¬(a < b), ¬(a < c), ¬(c < a ∧ c < b): result c with b ≤ c ≤ a
    refine Or.inr (Or.inr ⟨rfl, ?_, le_max_of_le_left (not_lt.mp h4)⟩)
    rcases not_and_or.mp h5 with h | h
    · exact min_le_of_left_le (by linarith [not_lt.mp h, not_lt.mp h1])
    · exact min_le_of_right_le (not_lt.mp h)

/-- **C4.** `skipToFrameFromTrajectory` skips iff the proximity query returned
exactly one match; for two or more matches only the warning is raised and the
playback position is unchanged; for zero matches nothing happens. -/
theorem skipToFrame_refuses_ambiguity (res : List ProxMatch) (currFrame : ℤ) :
    ((skipToFrameFromTrajectory res currFrame).skipped = true ↔ res.length = 1) ∧
    (res.length = 1 →
      skipToFrameFromTrajectory res currFrame =
        ⟨(res.headD default).frame, true, false⟩) ∧
    (res.length > 1 →
      skipToFrameFromTrajectory res currFrame = ⟨currFrame, false, true⟩) ∧
    (res.length = 0 →
      skipToFrameFromTrajectory res currFrame = ⟨currFrame, false, false⟩) := by
  unfold skipToFrameFromTrajectory
  refine ⟨?_, ?_, ?_, ?_⟩
  · split_ifs with h1 h2 <;> simpa using h1
  · intro h; rw [if_pos h]
  · intro h; rw [if_neg (by omega), if_pos h]
  · intro h; rw [if_neg (by omega), if_neg (by omega)]

/-- Witness for C4 at a two-element (ambiguous) result: the requested skip is
refused, the position stays, only the warning flag is set. -/
theorem skipToFrame_refuses_ambiguity_witness :
    skipToFrameFromTrajectory [⟨1, 5⟩, ⟨2, 7⟩] 3 = ⟨3, false, true⟩ :=
  (skipToFrame_refuses_ambiguity [⟨1, 5⟩, ⟨2, 7⟩] 3).2.2.1 (by decide)

/-- **C1.** A manual insert submits quality 110, strictly above the valid
maximum 100, so against any stored quality `q1 ∈ [0, 100]` the replacement
test (`new > stored`) passes and the stored point is replaced by the clicked
position with the quality clamped to 100. -/
theorem manualInsert_always_replaces (p s : Vec2) (sp : Vec3) (q1 : ℤ)
    (h0 : 0 ≤ q1) (h1 : q1 ≤ 100) :
    (manualTrackPoint p).qual = 110 ∧ 100 < (manualTrackPoint p).qual ∧
    addPointReplace ⟨s, q1, sp⟩ (manualTrackPoint p) =
      { pos := p, qual := 100, sp := default } := by
  refine ⟨rfl, by norm_num [manualTrackPoint], ?_⟩
  unfold addPointReplace manualTrackPoint
  rw [if_pos (by simpa using by omega)]
  have hmin : (110 : ℤ) ⊓ 100 = 100 := by decide
  simp [hmin]

/-- Witness for C1 at stored quality 50. -/
theorem manualInsert_always_replaces_witness :
    addPointReplace ⟨⟨3, 4⟩, 50, default⟩ (manualTrackPoint ⟨1, 2⟩) =
      { pos := ⟨1, 2⟩, qual := 100, sp := default } :=
  (manualInsert_always_replaces ⟨1, 2⟩ ⟨3, 4⟩ default 50 (by norm_num) (by norm_num)).2.2

/-- **C8 counterexample.** The claim "`getRoi` always yields `width ≥ 0`"
fails: requesting the ROI `(x = −10, y = 0, w = 3, h = 4)` on a 100×100 image
yields width `−8` (the left-clipping `rect.width += rect.x` drives the width
negative). -/
theorem getRoi_claim_counterexample :
    ¬ (0 ≤ (getRoi 100 100 ⟨-10, 0, 3, 4⟩ true).width) := by decide

/-- **C8 (amended).** For every image with non-negative dimensions: the
computed corner is clamped into the image and `x + width ≤ cols`,
`y + height ≤ rows` always hold; the computed extents are non-negative
provided the requested ROI has non-negative position and extent on that axis;
and under `evenPixelNumber` the computed extents are even provided
additionally the even-adjusted request fits inside the image on that axis. -/
theorem getRoi_amended (imgCols imgRows : ℤ) (roi : QRect) (even : Bool)
    (hc : 0 ≤ imgCols) (hr : 0 ≤ imgRows) :
    (0 ≤ (getRoi imgCols imgRows roi even).x ∧
     0 ≤ (getRoi imgCols imgRows roi even).y ∧
     (getRoi imgCols imgRows roi even).x + (getRoi imgCols imgRows roi even).width ≤ imgCols ∧
     (getRoi imgCols imgRows roi even).y + (getRoi imgCols imgRows roi even).height ≤ imgRows) ∧
    (0 ≤ roi.x → 0 ≤ roi.width → 0 ≤ (getRoi imgCols imgRows roi even).width) ∧
    (0 ≤ roi.y → 0 ≤ roi.height → 0 ≤ (getRoi imgCols imgRows roi even).height) ∧
    (even = true → 0 ≤ roi.x → 0 ≤ roi.width →
      roi.x + evenAdjust roi.width ≤ imgCols →
      (getRoi imgCols imgRows roi even).width % 2 = 0) ∧
    (even = true → 0 ≤ roi.y → 0 ≤ roi.height →
      roi.y + evenAdjust roi.height ≤ imgRows →
      (getRoi imgCols imgRows roi even).height % 2 = 0) := by
  have hax := clipAxis_spec imgCols roi.x
    (if even then evenAdjust roi.width else roi.width) hc
  have hay := clipAxis_spec imgRows roi.y
    (if even then evenAdjust roi.height else roi.height) hr
  have hadjW : 0 ≤ roi.width → 0 ≤ evenAdjust roi.width := by
    intro h; unfold evenAdjust
    rw [tmod_two_of_nonneg _ h]; split_ifs <;> omega
  have hadjH : 0 ≤ roi.height → 0 ≤ evenAdjust roi.height := by
    intro h; unfold evenAdjust
    rw [tmod_two_of_nonneg _ h]; split_ifs <;> omega
  have hevenW : 0 ≤ roi.width → evenAdjust roi.width % 2 = 0 := by
    intro h; unfold evenAdjust
    rw [tmod_two_of_nonneg _ h]; split_ifs <;> omega
  have hevenH : 0 ≤ roi.height → evenAdjust roi.height % 2 = 0 := by
    intro h; unfold evenAdjust
    rw [tmod_two_of_nonneg _ h]; split_ifs <;> omega
  simp only [getRoi]
  refine ⟨⟨hax.1, hay.1, hax.2.1, hay.2.1⟩, ?_, ?_, ?_, ?_⟩
  · intro hx hw
    exact hax.2.2.1 hx (by split_ifs <;> [exact hadjW hw; exact hw])
  · intro hy hh
    exact hay.2.2.1 hy (by split_ifs <;> [exact hadjH hh; exact hh])
  · intro he hx hw hfit
    have : clipAxis imgCols roi.x (if even then evenAdjust roi.width else roi.width) =
        (roi.x, evenAdjust roi.width) := by
      rw [if_pos he] at hax ⊢
      exact hax.2.2.2 hx (hadjW hw) hfit
    rw [this]
    exact hevenW hw
  · intro he hy hh hfit
    have : clipAxis imgRows roi.y (if even then evenAdjust roi.height else roi.height) =
        (roi.y, evenAdjust roi.height) := by
      rw [if_pos he] at hay ⊢
      exact hay.2.2.2 hy (hadjH hh) hfit
    rw [this]
    exact hevenH hh

/-- Witness for the amended C8 at a request that is partly out of bounds:
corner clamped, extents clipped to the image, position/extent sums within
bounds. -/
theorem getRoi_amended_witness :
    (0:ℤ) ≤ 100 ∧ getRoi 100 100 ⟨90, -5, 6, 8⟩ true = ⟨90, 0, 6, 3⟩ ∧
    (0 ≤ (getRoi 100 100 ⟨90, -5, 6, 8⟩ true).x ∧
     0 ≤ (getRoi 100 100 ⟨90, -5, 6, 8⟩ true).y ∧
     (getRoi 100 100 ⟨90, -5, 6, 8⟩ true).x +
       (getRoi 100 100 ⟨90, -5, 6, 8⟩ true).width ≤ 100 ∧
     (getRoi 100 100 ⟨90, -5, 6, 8⟩ true).y +
       (getRoi 100 100 ⟨90, -5, 6, 8⟩ true).height ≤ 100) :=
  ⟨by norm_num, by decide,
    (getRoi_amended 100 100 ⟨90, -5, 6, 8⟩ true (by norm_num) (by norm_num)).1⟩

/-- With no free permit (an update is in progress), every call in a forest is
dropped whole: no pipeline work, no queuing, no state change. -/
theorem runCalls_no_permit (forest : CallForest) : runCalls forest 0 = (0, []) := by
  induction forest with
  | nil => rfl
  | call imgOk frame nested rest ihn ihr =>
      simp [runCalls, ihr]

/-- **C7.** Starting from the one free permit, a forest of `updateImage`
calls processes exactly the frames of the top-level calls whose image guard
holds, each once and in order: every call nested inside an active update sees
the permit taken, does no pipeline work and is dropped rather than queued,
and the permit count is 1 again after every top-level call. -/
theorem updateImage_single_flight (forest : CallForest) :
    runCalls forest 1 = (1, topFrames forest) ∧
    (∀ nested : CallForest, runCalls nested 0 = (0, [])) := by
  refine ⟨?_, runCalls_no_permit⟩
  induction forest with
  | nil => rfl
  | call imgOk frame nested rest ihn ihr =>
      cases imgOk with
      | true => simp [runCalls, topFrames, runCalls_no_permit nested, ihr]
      | false => simp [runCalls, topFrames, ihr]

/-- **C6.** Whatever the filter/tracking/recognition gating flags, the stages
one `updateImage` body executes are phase-ordered: all image filtering (and
the calibration-change store reset) precedes the tracking update, which
precedes recognition detection, which precedes the persistence of
recognition results; in particular a tracking update always comes strictly
before the recognition persistence of the same body. -/
theorem updateImage_pipeline_order (f : UpdateFlags) :
    (updateImageTrace f).Pairwise (fun a b => stepPhase a ≤ stepPhase b) ∧
    (∀ i j : Fin (updateImageTrace f).length,
      (updateImageTrace f).get i = .trackUpdate →
      (updateImageTrace f).get j = .recoPersist → (i : ℕ) < (j : ℕ)) := by
  have h1 : (updateImageTrace f).Pairwise (fun a b => stepPhase a ≤ stepPhase b) := by
    unfold updateImageTrace
    split_ifs <;> decide
  refine ⟨h1, ?_⟩
  rw [List.pairwise_iff_get] at h1
  intro i j hi hj
  rcases lt_trichotomy (i : ℕ) (j : ℕ) with h | h | h
  · exact h
  · exact absurd (hj ▸ (Fin.ext h : i = j) ▸ hi) (by simp)
  · have := h1 j i (by exact_mod_cast h)
    rw [hi, hj] at this
    simp [stepPhase] at this

/-- Witness for C6 under `demoFlags` (every stage runs): the tracking update
sits at index 6 of the trace, the recognition persistence at index 8, and the
theorem yields `6 < 8`. -/
theorem updateImage_pipeline_order_witness :
    (updateImageTrace demoFlags).get ⟨6, by decide⟩ = .trackUpdate ∧
    (updateImageTrace demoFlags).get ⟨8, by decide⟩ = .recoPersist ∧
    (6 : ℕ) < (8 : ℕ) :=
  ⟨by decide, by decide,
    (updateImage_pipeline_order demoFlags).2 ⟨6, by decide⟩ ⟨8, by decide⟩
      (by decide) (by decide)⟩

/-- **C2 (amended).** The `.trc` importer accepts exactly versions 1–4: a
first line accepted by `QString::toInt` — a bare integer within the 32-bit
`int` range — selects version 1 with that integer as the person count;
otherwise a first line containing `version 4` / `version 3` / `version 2`
(case-insensitively, tested in that order) selects that version; any other
first line (including a bare integer outside `int` range, which fails
`toInt`) is a fatal format error after which the store is unchanged — and
whenever the import reports a format error, no person was added. -/
theorem importTrc_versions (file : TrcFile) (store : List TrackPerson) :
    (∀ n, qStringToInt file.firstLine = some n →
      importTrc file store = (store ++ file.persons.take n.toNat, some (1, n))) ∧
    (qStringToInt file.firstLine = none →
      qContainsCI file.firstLine "version 4" = true →
      importTrc file store =
        (store ++ file.persons.take file.streamCount.toNat, some (4, file.streamCount))) ∧
    (qStringToInt file.firstLine = none →
      qContainsCI file.firstLine "version 4" = false →
      qContainsCI file.firstLine "version 3" = true →
      importTrc file store =
        (store ++ file.persons.take file.streamCount.toNat, some (3, file.streamCount))) ∧
    (qStringToInt file.firstLine = none →
      qContainsCI file.firstLine "version 4" = false →
      qContainsCI file.firstLine "version 3" = false →
      qContainsCI file.firstLine "version 2" = true →
      importTrc file store =
        (store ++ file.persons.take file.streamCount.toNat, some (2, file.streamCount))) ∧
    (qStringToInt file.firstLine = none →
      qContainsCI file.firstLine "version 4" = false →
      qContainsCI file.firstLine "version 3" = false →
      qContainsCI file.firstLine "version 2" = false →
      importTrc file store = (store, none)) ∧
    ((importTrc file store).2 = none → (importTrc file store).1 = store) := by
  unfold importTrc
  rcases h : qStringToInt file.firstLine with _ | n
  · refine ⟨by simp, ?_, ?_, ?_, ?_, ?_⟩ <;> intros <;> split_ifs <;> simp_all
  · refine ⟨by simp, by simp, by simp, by simp, by simp, ?_⟩
    simp

/-- **C2 counterexample.** The original claim — every bare-integer first line
selects version 1 with that integer as the person count — fails at the first
line `2147483648`: that line is a bare decimal numeral (it is 2 to the 31st),
but it exceeds `INT_MAX`, so `QString::toInt` fails on it, no version header
matches, and the whole import is a fatal format error adding nobody, instead
of a version-1 import of 2147483648 persons. -/
theorem importTrc_claim_counterexample :
    digitsVal "2147483648".data = some 2147483648 ∧
    importTrc ⟨"2147483648", 7, [default]⟩ [] = ([], none) := by
  exact ⟨by decide, by decide⟩

/-- Witness for C2: a `version 3` header (with different capitalization) is
not a bare integer, selects version 3 and commits the streamed person count;
a junk header is rejected leaving the one-person store untouched. -/
theorem importTrc_versions_witness :
    importTrc ⟨"Version 3", 2, [default, default, default]⟩ [default] =
      ([default, default, default], some (3, 2)) ∧
    importTrc ⟨"bogus header", 2, [default, default]⟩ [default] = ([default], none) :=
  ⟨(importTrc_versions ⟨"Version 3", 2, [default, default, default]⟩ [default]).2.2.1
      (by decide) (by decide) (by decide),
   (importTrc_versions ⟨"bogus header", 2, [default, default]⟩ [default]).2.2.2.2.1
      (by decide) (by decide) (by decide) (by decide)⟩

/-- The 3-iteration comparison loop of `newerThanVersion` computes exactly
the strict lexicographic order on triples. -/
theorem lexNewer_eq_tripleNewer (a1 b1 c1 a2 b2 c2 : ℤ) :
    lexNewer [a1, b1, c1] [a2, b2, c2] = tripleNewer (a1, b1, c1) (a2, b2, c2) := by
  simp only [lexNewer, tripleNewer]
  split_ifs <;> simp_all <;> omega

/-- **C9 (amended).** `newerThanVersion q1 q2` decides the strict
lexicographic order on the `(major, minor, patch)` triples denoted by the
inputs (a two-part version having patch 0) — in particular it returns `false`
whenever both inputs denote the same triple — and it throws (models: returns
`.error`) exactly when an input does not denote a triple, i.e. has a part not
accepted by `QString::toInt` (non-numeric, or numeric but outside the 32-bit
`int` range) or a part count other than 2 or 3. -/
theorem newerThanVersion_spec (q1 q2 : String) :
    (∀ t1 t2, parseTriple q1 = some t1 → parseTriple q2 = some t2 →
      newerThanVersion q1 q2 = .ok (tripleNewer t1 t2)) ∧
    (∀ t1 t2, parseTriple q1 = some t1 → parseTriple q2 = some t2 → t1 = t2 →
      newerThanVersion q1 q2 = .ok false) ∧
    ((parseTriple q1 = none ∨ parseTriple q2 = none) →
      ∃ e, newerThanVersion q1 q2 = .error e) := by
  have key : ∀ t1 t2, parseTriple q1 = some t1 → parseTriple q2 = some t2 →
      newerThanVersion q1 q2 = .ok (tripleNewer t1 t2) := by
    intro t1 t2 h1 h2
    unfold parseTriple at h1 h2
    unfold newerThanVersion
    rcases hv1 : versionParts q1 with _ | v1 <;> rw [hv1] at h1 <;> try exact absurd h1 (by simp)
    rcases hv2 : versionParts q2 with _ | v2 <;> rw [hv2] at h2 <;> try exact absurd h2 (by simp)
    rcases v1 with _ | ⟨a1, _ | ⟨b1, _ | ⟨c1, _ | _⟩⟩⟩ <;>
      rcases v2 with _ | ⟨a2, _ | ⟨b2, _ | ⟨c2, _ | _⟩⟩⟩ <;>
      simp_all <;>
      simp [← h1, ← h2, lexNewer_eq_tripleNewer]
  refine ⟨key, fun t1 t2 h1 h2 he => ?_, fun h => ?_⟩
  · rw [key t1 t2 h1 h2, he]
    have : tripleNewer t2 t2 = false := by
      simp [tripleNewer]
    rw [this]
  · unfold parseTriple at h
    unfold newerThanVersion
    rcases hv1 : versionParts q1 with _ | v1
    · exact ⟨_, rfl⟩
    · rcases hv2 : versionParts q2 with _ | v2
      · exact ⟨_, rfl⟩
      · rw [hv1, hv2] at h
        rcases v1 with _ | ⟨a1, _ | ⟨b1, _ | ⟨c1, _ | _⟩⟩⟩ <;>
          rcases v2 with _ | ⟨a2, _ | ⟨b2, _ | ⟨c2, _ | _⟩⟩⟩ <;>
          simp_all

/-- **C9 counterexample.** The original claim — it throws iff some part is
non-numeric or the part count is not 2 or 3 — fails when the first input is
`2147483648.0.0` and the second is `1.0.0`: the first input has exactly three
parts, every one a decimal numeral, yet the part `2147483648` exceeds
`INT_MAX`, so `QString::toInt` fails on it and `newerThanVersion` throws the
non-numeric `invalid_argument` all the same. -/
theorem newerThanVersion_claim_counterexample :
    (splitDot "2147483648.0.0".data).length = 3 ∧
    (splitDot "2147483648.0.0".data).all
      (fun p => (digitsVal (trimChars p)).isSome) = true ∧
    newerThanVersion "2147483648.0.0" "1.0.0" =
      .error "Invalid PeTrack version string: Version is non-numeric!" := by
  refine ⟨by decide, by decide, ?_⟩
  rfl

/-- Witness for C9: `"1.0"` and `"1.0.0"` denote the same triple `(1, 0, 0)`
and compare as not-newer. -/
theorem newerThanVersion_spec_witness :
    parseTriple "1.0" = some (1, 0, 0) ∧ parseTriple "1.0.0" = some (1, 0, 0) ∧
    newerThanVersion "1.0" "1.0.0" = .ok false :=
  ⟨by decide, by decide,
    (newerThanVersion_spec "1.0" "1.0.0").2.1 (1, 0, 0) (1, 0, 0)
      (by decide) (by decide) rfl⟩

/-- `assocFind` misses exactly when the key is not among the stored keys. -/
theorem assocFind_eq_none_iff (k : ℤ × ℤ) (l : List ((ℤ × ℤ) × Vec3)) :
    assocFind k l = none ↔ k ∉ l.map Prod.fst := by
  induction l with
  | nil => simp [assocFind]
  | cons e rest ih =>
      unfold assocFind
      split_ifs with h <;> simp_all

/-- The unit bookkeeping never touches the accumulated person data. -/
theorem txtUnitStep_personData (st : TxtParseState) :
    (txtUnitStep st).personData = st.personData := by
  unfold txtUnitStep
  split <;> rfl

/-- The parsing loop aborts exactly when some record's key repeats an already
stored key. -/
theorem parseTxtLines_eq_none_iff (lines : List TxtLine) :
    ∀ st : TxtParseState,
      (parseTxtLines lines st = none ↔
        hasDupFrom (st.personData.map Prod.fst) lines = true) := by
  induction lines with
  | nil => intro st; simp [parseTxtLines, hasDupFrom]
  | cons line rest ih =>
      intro st
      cases line with
      | comment text => simpa [parseTxtLines, hasDupFrom] using ih _
      | record p f x y z =>
          simp only [parseTxtLines, hasDupFrom]
          rcases h : assocFind (p, f) (txtUnitStep st).personData with _ | v
          · rw [txtUnitStep_personData, assocFind_eq_none_iff] at h
            have hmem : decide ((p, f) ∈ st.personData.map Prod.fst) = false := by
              simpa using h
            rw [ih]
            simp [hmem, txtUnitStep_personData]
          · rw [txtUnitStep_personData] at h
            have hmem : (p, f) ∈ st.personData.map Prod.fst := by
              by_contra hc
              rw [← assocFind_eq_none_iff] at hc
              simp [hc] at h
            simp [hmem]

/-- Walked from a duplicate-free set of stored keys, the loop's duplicate
test is equivalent to `Nodup` of stored keys plus record keys. -/
theorem hasDupFrom_eq_false_iff (lines : List TxtLine) :
    ∀ ks : List (ℤ × ℤ), ks.Nodup →
      (hasDupFrom ks lines = false ↔ (ks ++ recordKeys lines).Nodup) := by
  induction lines with
  | nil => intro ks hks; simp [hasDupFrom, recordKeys, hks]
  | cons line rest ih =>
      intro ks hks
      cases line with
      | comment text => simpa [hasDupFrom, recordKeys] using ih ks hks
      | record p f x y z =>
          simp only [hasDupFrom, recordKeys]
          by_cases hk : (p, f) ∈ ks
          · constructor
            · intro h; simp [hk] at h
            · intro h
              rw [List.nodup_append] at h
              exact absurd (h.2.2 hk (by simp)) (by simp)
          · have hnd : (ks ++ [(p, f)]).Nodup := by
              rw [List.nodup_append]
              exact ⟨hks, List.nodup_singleton _, by simpa using hk⟩
            have := ih (ks ++ [(p, f)]) hnd
            rw [List.append_assoc, List.singleton_append] at this
            simp [hk, this]

/-- **C3.** A repeated `(person, frame)` pair among the records of a legacy
`.txt` trajectory file makes the import fail hard and atomically: the error
is raised during parsing, before the commit loop, so the store comes back
exactly as it was and no person from the file is added; conversely a
duplicate-free file never raises this error. -/
theorem importTxt_duplicate_atomic (proj : Vec3 → Vec2) (trans3 : ℚ)
    (lines : List TxtLine) (store : List TrackPerson) :
    (¬ (recordKeys lines).Nodup → importTxt proj trans3 lines store = (store, true)) ∧
    ((recordKeys lines).Nodup → (importTxt proj trans3 lines store).2 = false) := by
  have hiff := parseTxtLines_eq_none_iff lines initTxtState
  have hinit : initTxtState.personData.map Prod.fst = [] := rfl
  rw [hinit] at hiff
  have hdup := hasDupFrom_eq_false_iff lines [] List.nodup_nil
  rw [List.nil_append] at hdup
  constructor
  · intro h
    have hnone : parseTxtLines lines initTxtState = none := by
      rw [hiff]
      rcases Bool.eq_false_or_eq_true (hasDupFrom [] lines) with hb | hb
      · exact hb
      · exact absurd (hdup.mp hb) h
    unfold importTxt
    rw [hnone]
  · intro h
    have hb : hasDupFrom [] lines = false := hdup.mpr h
    have hsome : parseTxtLines lines initTxtState ≠ none := by
      rw [Ne, hiff, hb]
      simp
    unfold importTxt
    rcases hp : parseTxtLines lines initTxtState with _ | st
    · exact absurd hp hsome
    · simp

/-- Witness for C3: a file whose two records share the key `(1, 5)` is
rejected and the one-person store is returned unmodified. -/
theorem importTxt_duplicate_atomic_witness :
    ¬ (recordKeys [.record 1 5 0 0 0, .record 1 5 1 1 1]).Nodup ∧
    importTxt (fun _ => default) 0 [.record 1 5 0 0 0, .record 1 5 1 1 1] [default] =
      ([default], true) :=
  ⟨by decide,
    (importTxt_duplicate_atomic (fun _ => default) 0
      [.record 1 5 0 0 0, .record 1 5 1 1 1] [default]).1 (by decide)⟩

/-- **C5.** For a valid person with a track point at the frame, under 3D
calibration (`calibCoordDimension = 0`) the apparent head size is the larger
of the two pixel deltas obtained by projecting two 3D points separated by the
real head diameter — offsets of ±half the head size along x and along y —
around the estimated 3D head position, truncated to whole pixels by the `int`
cast. -/
theorem getHeadSize_3d_projection (env : HeadSizeEnv) (pos : Option Vec2)
    (pers frame : ℤ)
    (h0 : 0 ≤ pers) (h1 : pers < (env.persons.length : ℤ))
    (h2 : (env.personAt pers).trackPointExist frame = true)
    (h3 : env.calibCoordDimension = 0) :
    getHeadSize env pos pers frame =
      (ratTrunc (max
        (headPixelDelta env
          (env.calib.get3DPoint ((env.personAt pers).trackPointAt frame).pos
            env.defaultHeight)
          (env.headSizeCm * (1/2)) 0)
        (headPixelDelta env
          (env.calib.get3DPoint ((env.personAt pers).trackPointAt frame).pos
            env.defaultHeight)
          0 (env.headSizeCm * (1/2)))) : ℚ) := by
  unfold getHeadSize
  rw [if_pos ⟨h0, h1, h2⟩, if_pos h3]
  unfold headPixelDelta pixelDist
  simp [add_zero, sub_zero]

/-- Witness for C5 in `headSizeDemoEnv`: the hypotheses hold at person 0 and
frame 0, and both sides evaluate to the same number. -/
theorem getHeadSize_3d_projection_witness :
    (0 : ℤ) ≤ 0 ∧ (0 : ℤ) < (headSizeDemoEnv.persons.length : ℤ) ∧
    (headSizeDemoEnv.personAt 0).trackPointExist 0 = true ∧
    headSizeDemoEnv.calibCoordDimension = 0 ∧
    getHeadSize headSizeDemoEnv none 0 0 =
      (ratTrunc (max
        (headPixelDelta headSizeDemoEnv
          (headSizeDemoEnv.calib.get3DPoint
            ((headSizeDemoEnv.personAt 0).trackPointAt 0).pos
            headSizeDemoEnv.defaultHeight)
          (headSizeDemoEnv.headSizeCm * (1/2)) 0)
        (headPixelDelta headSizeDemoEnv
          (headSizeDemoEnv.calib.get3DPoint
            ((headSizeDemoEnv.personAt 0).trackPointAt 0).pos
            headSizeDemoEnv.defaultHeight)
          0 (headSizeDemoEnv.headSizeCm * (1/2)))) : ℚ) :=
  ⟨le_refl 0, by decide, by decide, rfl,
    getHeadSize_3d_projection headSizeDemoEnv none 0 0
      (le_refl 0) (by decide) (by decide) rfl⟩

end PeTrack
